import Mathlib

/-!
Verification of the growatt_mqtt inverter monitor.

Shallow embedding of the decode/schedule/upload core of
`src/canadian_reads_mqtt2.py` (legacy variant) and
`src/src/canadian_reads_mqtt2.py` (MQTT variant), together with proofs of
the specified properties.

Machine registers are 16-bit unsigned values modelled as `ℕ`; Python floats
are modelled as exact rationals `ℚ`; Python `int` values that can be negative
are modelled as `ℤ`.  Fallible code returns `Except`.
-/

set_option maxHeartbeats 1000000
set_option linter.unusedVariables false

namespace GrowattMqtt

/-! Section: Python numeric primitives -/

/-- Python `int(q)`: truncation toward zero. -/
def pyInt (q : ℚ) : ℤ :=
  if 0 ≤ q then ⌊q⌋ else ⌈q⌉

/-- Python `round(q)` for a real (here rational) argument:
round half to even ("banker's rounding"). -/
def pyRound (q : ℚ) : ℤ :=
  if q - ⌊q⌋ < 1/2 then ⌊q⌋
  else if q - ⌊q⌋ = 1/2 then (if ⌊q⌋ % 2 = 0 then ⌊q⌋ else ⌊q⌋ + 1)
  else ⌊q⌋ + 1

theorem pyInt_intCast (z : ℤ) : pyInt (z : ℚ) = z := by
  unfold pyInt
  rcases le_or_lt 0 (z : ℚ) with h | h
  · rw [if_pos h, Int.floor_intCast]
  · rw [if_neg (not_le.mpr h), Int.ceil_intCast]

theorem pyRound_intCast (z : ℤ) : pyRound (z : ℚ) = z := by
  unfold pyRound
  rw [Int.floor_intCast]
  have h0 : (z : ℚ) - (z : ℚ) = 0 := by ring
  rw [h0, if_pos (by norm_num)]

/-! Section: Bit-arithmetic helper lemmas -/

theorem two_mul_lor_eq (x b : ℕ) :
    (2 * x) ||| b = 2 * (x ||| b / 2) + b % 2 := by
  have hd : ((2 * x) ||| b) / 2 = x ||| b / 2 := by
    rw [Nat.or_div_two]
    congr 1
    omega
  have hm : ((2 * x) ||| b) % 2 = b % 2 := by
    have h1 := Nat.or_mod_two_eq_one (a := 2 * x) (b := b)
    have h2 : (2 * x) % 2 = 0 := by omega
    rcases Nat.mod_two_eq_zero_or_one b with hb | hb
    · rcases Nat.mod_two_eq_zero_or_one ((2 * x) ||| b) with hy | hy
      · omega
      · have := h1.mp hy
        omega
    · rw [hb]
      exact h1.mpr (Or.inr hb)
  omega

/-- Bitwise or of a left-shifted value with a small value is addition:
the operand bit ranges are disjoint. -/
theorem shiftLeft_lor_eq_add (a : ℕ) :
    ∀ (n : ℕ) (b : ℕ), b < 2 ^ n → (a <<< n) ||| b = a <<< n + b := by
  intro n
  induction n with
  | zero =>
    intro b hb
    interval_cases b
    simp
  | succ n ih =>
    intro b hb
    have hpow : 2 ^ (n + 1) = 2 ^ n * 2 := by rw [pow_succ]
    have h1 : a <<< (n + 1) = 2 * (a <<< n) := by
      rw [Nat.shiftLeft_eq, Nat.shiftLeft_eq, pow_succ]
      ring
    have hb2 : b / 2 < 2 ^ n := by omega
    rw [h1, two_mul_lor_eq, ih (b / 2) hb2]
    omega

/-- Masking with a shifted nibble mask then shifting down extracts a
base-16 digit. -/
theorem mask_shift_eq (mo s : ℕ) :
    (mo &&& (15 <<< s)) >>> s = (mo >>> s) % 16 := by
  have h15 : (15 : ℕ) = 2 ^ 4 - 1 := by norm_num
  have h16 : (16 : ℕ) = 2 ^ 4 := by norm_num
  apply Nat.eq_of_testBit_eq
  intro j
  rw [h15, h16, Nat.testBit_shiftRight, Nat.testBit_and, Nat.testBit_shiftLeft,
    Nat.testBit_mod_two_pow, Nat.testBit_shiftRight]
  rw [Nat.testBit_two_pow_sub_one]
  have hge : s + j ≥ s := Nat.le_add_right s j
  rw [decide_eq_true hge]
  have hsub : s + j - s = j := by omega
  rw [hsub]
  rw [Bool.true_and, Bool.and_comm]

/-! Section: Status code table (`src/src/const.py`) -/

/-- The table `STATUSCODES` of `const.py`, as a partial map;
`none` models a `KeyError` on lookup. -/
def STATUSCODES : ℤ → Option String := fun s =>
  if s = 0 then some ("Waiting")
  else if s = 1 then some ("Normal")
  else if s = 3 then some ("Fault")
  else none

/-! Section: Inverter (`src/src/canadian_reads_mqtt2.py`, class `Inverter`) -/

/-- The mutable attributes of an `Inverter` object, plus a `connOpen` flag
modelling whether the serial connection is open.  Timestamps are abstract
integers; measurement floats are exact rationals. -/
structure Inverter where
  date : ℤ
  status : ℤ
  pv_power_total : ℚ
  pv_power1 : ℚ
  pv_volts1 : ℚ
  pv_amps1 : ℚ
  pv_power2 : ℚ
  pv_volts2 : ℚ
  pv_amps2 : ℚ
  ac_volts : ℚ
  ac_power : ℚ
  ac_amps : ℚ
  ac_frequency : ℚ
  wh_today : ℚ
  wh_total : ℚ
  temp : ℚ
  ipm_temp : ℚ
  firmware : String
  control_fw : String
  model_no : String
  serial_no : String
  dtc : ℤ
  status_str : String
  operation_hours : ℚ
  connOpen : Bool
deriving DecidableEq

/-- Initial attribute values set by `Inverter.__init__`. -/
def Inverter.initial : Inverter where
  date := 0
  status := -1
  pv_power_total := 0
  pv_power1 := 0
  pv_volts1 := 0
  pv_amps1 := 0
  pv_power2 := 0
  pv_volts2 := 0
  pv_amps2 := 0
  ac_volts := 0
  ac_power := 0
  ac_amps := 0
  ac_frequency := 0
  wh_today := 0
  wh_total := 0
  temp := 0
  ipm_temp := 0
  firmware := ""
  control_fw := ""
  model_no := ""
  serial_no := ""
  dtc := -1
  status_str := ""
  operation_hours := 0
  connOpen := false

/-- Method `Inverter._rssf(registers, index, scale)`: read and scale single to float. -/
def Inverter._rssf (registers : List ℕ) (index : ℕ) (scale : ℚ) : ℚ :=
  ((registers.getD index 0 : ℕ) : ℚ) / scale

/-- Method `Inverter._rsdf(registers, index, scale)`: read and scale double to float,
`float((registers[index] << 16) + registers[index + 1]) / scale`. -/
def Inverter._rsdf (registers : List ℕ) (index : ℕ) (scale : ℚ) : ℚ :=
  (((registers.getD index 0 <<< 16) + registers.getD (index + 1) 0 : ℕ) : ℚ) / scale

/-- One register of `Inverter._decode_registers`:
`chr(registers[i] >> 8) + chr(registers[i] & 0xFF)`. -/
def Inverter.pairChars (v : ℕ) : List Char :=
  [Char.ofNat (v >>> 8), Char.ofNat (v &&& 0xFF)]

/-- Method `Inverter._decode_registers(registers, start, count)`: decode a sequence of
16-bit registers into a string, two characters per register. -/
def Inverter._decode_registers (registers : List ℕ) (start count : ℕ) : String :=
  ⟨(List.range count).flatMap fun i => Inverter.pairChars (registers.getD (start + i) 0)⟩

/-- The result of a Modbus block read: a protocol error, or a register array. -/
inductive ReadResult where
  | err : ReadResult
  | ok (registers : List ℕ) : ReadResult
deriving DecidableEq

/-- The measurement-field updates of the success branch of
`Inverter.read_inputs` (source lines 190-209), in source order. -/
def Inverter.decodeFields (regs : List ℕ) (s : Inverter) : Inverter :=
  { s with
    pv_power_total := Inverter._rsdf regs 1 10
    pv_volts1 := Inverter._rssf regs 3 10
    pv_amps1 := Inverter._rssf regs 4 10
    pv_power1 := Inverter._rsdf regs 5 10
    pv_volts2 := Inverter._rssf regs 7 10
    pv_amps2 := Inverter._rssf regs 8 10
    pv_power2 := Inverter._rsdf regs 9 10
    ac_power := Inverter._rsdf regs 11 10
    ac_volts := Inverter._rssf regs 14 10
    ac_amps := Inverter._rssf regs 15 10
    ac_frequency := Inverter._rssf regs 13 100
    wh_today := Inverter._rsdf regs 26 0.01
    wh_total := Inverter._rsdf regs 28 0.01
    operation_hours := Inverter._rsdf regs 30 7200
    temp := Inverter._rssf regs 32 10
    ipm_temp := Inverter._rssf regs 41 10 }

/-- Method `Inverter.read_inputs`.  Inputs: the current object state, whether
`self._inv.connect()` succeeds, the current local time, and the Modbus
response.  Output: `.error ()` models an uncaught `KeyError` escaping the
method; `.ok (b, s)` models returning the boolean `b` with object state `s`. -/
def Inverter.read_inputs (self : Inverter) (connectOk : Bool) (now : ℤ)
    (rr : ReadResult) : Except Unit (Bool × Inverter) :=
  if connectOk = false then .ok (false, self)
  else
    match rr with
    | .ok regs =>
      if 45 ≤ regs.length then
        let s1 := { self with
                    connOpen := true
                    date := now
                    status := ((regs.getD 0 0 : ℕ) : ℤ) }
        if s1.status = -1 then
          .ok (true, Inverter.decodeFields regs s1)
        else
          match STATUSCODES s1.status with
          | none => .error ()
          | some str => .ok (true, Inverter.decodeFields regs { s1 with status_str := str })
      else
        .ok (false, { self with status := -1, connOpen := false })
    | .err =>
      .ok (false, { self with status := -1, connOpen := false })

/-- The model-number rendering inside `Inverter.version` (source lines
257-262), as a function of the combined 32-bit value
`mo = (registers[28] << 16) + registers[29]`. -/
def Inverter.model_no_of (mo : ℕ) : String :=
  "T" ++ toString ((mo &&& 0xF00000) >>> 20) ++ " Q" ++ toString ((mo &&& 0x0F0000) >>> 16) ++
  " P" ++ toString ((mo &&& 0x00F000) >>> 12) ++ " U" ++ toString ((mo &&& 0x000F00) >>> 8) ++
  " M" ++ toString ((mo &&& 0x0000F0) >>> 4) ++ " S" ++ toString (mo &&& 0x00000F)

/-- The model-number decode of `Inverter.version` applied to a holding-register
array: combine registers 28 and 29 (high word first) and render. -/
def Inverter.version_model_no (registers : List ℕ) : String :=
  Inverter.model_no_of ((registers.getD 28 0 <<< 16) + registers.getD 29 0)

/-! Section: PVOutputAPI (`src/src/canadian_reads_mqtt2.py`, class `PVOutputAPI`) -/

/-- The mutable state of a `PVOutputAPI` object relevant to uploads:
`self._wh_today_last`. -/
structure UploadState where
  wh_today_last : ℤ
deriving DecidableEq

/-- Construction state from `PVOutputAPI.__init__`: `self._wh_today_last = 0`. -/
def PVOutputAPI.initial : UploadState := ⟨0⟩

/-- The `addstatus.jsp` payload built by `PVOutputAPI.send_status`.
Absent keys are `none`. -/
structure Payload where
  d : String
  t : String
  v1 : Option ℤ
  v2 : Option ℚ
  v3 : Option ℤ
  v4 : Option ℚ
  v5 : Option ℚ
  v6 : Option ℚ
  v8 : Option ℚ
  v9 : Option ℚ
  v10 : Option ℤ
  v12 : Option ℚ
  c1 : ℤ
  m1 : Option String
deriving DecidableEq

/-- Method `PVOutputAPI.send_status` of the MQTT variant
(`src/src/canadian_reads_mqtt2.py` lines 334-375).  The `date` argument is
modelled by its two formatted strings `d`/`t`; building and (conditionally)
sending the payload is modelled by returning the updated object state and
the payload. -/
def PVOutputAPI.send_status (self : UploadState) (d t : String)
    (energy_gen power_gen : Option ℚ) (energy_imp : Option ℚ)
    (power_imp temp vdc : Option ℚ) (cumulative : Bool)
    (vac temp_inv : Option ℚ) (energy_life : Option ℚ)
    (comments : Option String) (power_vdc : Option ℚ) :
    UploadState × Payload :=
  -- only report total energy if it has changed since last upload
  let st1 : UploadState :=
    match energy_gen with
    | some e => if (self.wh_today_last : ℚ) ≠ e then ⟨pyInt e⟩ else self
    | none => self
  let v1 : Option ℤ :=
    match energy_gen with
    | some e => if (self.wh_today_last : ℚ) ≠ e then some (pyInt e) else none
    | none => none
  let payload : Payload :=
    { d := d
      t := t
      v1 := v1
      v2 := power_gen
      v3 := energy_imp.map pyInt
      v4 := power_imp
      v5 := temp
      v8 := vdc
      c1 := if cumulative = true then 1 else 0
      v6 := vac
      v9 := temp_inv
      v10 := energy_life.map pyInt
      m1 := comments.map (fun s => s.take 30)
      -- calculate efficiency
      v12 :=
        match power_vdc, power_gen with
        | some pv, some pg => if 0 < pv then some (pg / pv * 100) else none
        | _, _ => none }
  (st1, payload)

/-- Method `PVOutputAPI.send_status` of the legacy variant
(`src/canadian_reads_mqtt2.py` lines 261-308): `vdc` feeds `v6`, the
`vac`/`temp_inv` lines are commented out, and the efficiency field is not
multiplied by 100. -/
def LegacyPVOutputAPI.send_status (self : UploadState) (d t : String)
    (energy_gen power_gen : Option ℚ) (energy_imp : Option ℚ)
    (power_imp temp vdc : Option ℚ) (cumulative : Bool)
    (vac temp_inv : Option ℚ) (energy_life : Option ℚ)
    (comments : Option String) (power_vdc : Option ℚ) :
    UploadState × Payload :=
  let st1 : UploadState :=
    match energy_gen with
    | some e => if (self.wh_today_last : ℚ) ≠ e then ⟨pyInt e⟩ else self
    | none => self
  let v1 : Option ℤ :=
    match energy_gen with
    | some e => if (self.wh_today_last : ℚ) ≠ e then some (pyInt e) else none
    | none => none
  let payload : Payload :=
    { d := d
      t := t
      v1 := v1
      v2 := power_gen
      v3 := energy_imp.map pyInt
      v4 := power_imp
      v5 := temp
      v6 := vdc
      c1 := if cumulative = true then 1 else 0
      v8 := none
      v9 := none
      v10 := energy_life.map pyInt
      m1 := comments.map (fun s => s.take 30)
      v12 :=
        match power_vdc, power_gen with
        | some pv, some pg => if 0 < pv then some (pg / pv) else none
        | _, _ => none }
  (st1, payload)

/-! ### The retrying network call `PVOutputAPI.__call` -/

/-- What one `requests.post` attempt yields.  A `response` carries the HTTP
status code, the raw `X-Rate-Limit-Reset` header value, the value of
`time()` at this attempt, and the `X-Rate-Limit-Remaining` header value.
`badHeaders` models a response whose rate-limit headers fail to parse
(the resulting `KeyError`/`ValueError` is not caught by the handlers).
`netError` models `requests` raising `ConnectionError`, `Timeout` or another
`RequestException`. -/
inductive Outcome where
  | response (status : ℤ) (resetHdr now : ℚ) (remaining : ℤ)
  | badHeaders
  | netError

/-- Observable events of `PVOutputAPI.__call`: an HTTP POST attempt, a
`sleep` of a number of seconds, the give-up log line of the `for`-`else`
clause, and an exception escaping the method. -/
inductive Event where
  | post
  | sleepFor (seconds : ℤ)
  | giveUpLog
  | raised
deriving DecidableEq

/-- Control flow after one loop body of `PVOutputAPI.__call`. -/
inductive StepKind where
  | brk
  | cont
  | raise
deriving DecidableEq

/-- One iteration of the retry loop of `PVOutputAPI.__call` (source lines
308-330): the events it emits and how control continues.  On a 403 the code
calls `sleep(reset + 1)`; when that argument is negative (a reset header
sufficiently in the past), `time.sleep` raises `ValueError`, which none of
the `requests.exceptions` handlers catch, so it escapes the method and the
loop does not continue. -/
def PVOutputAPI.attemptStep (o : Outcome) : List Event × StepKind :=
  match o with
  | .response status resetHdr now _ =>
    let reset := pyRound (resetHdr - now)
    if status = 403 then
      if reset + 1 < 0 then
        -- `sleep(reset + 1)` with a negative argument: uncaught `ValueError`
        ([.post, .raised], .raise)
      else
        -- warn, `sleep(reset + 1)`, fall through to `sleep(5)`, next iteration
        ([.post, .sleepFor (reset + 1), .sleepFor 5], .cont)
    else if 400 ≤ status ∧ status < 600 then
      -- `raise_for_status()` raises `HTTPError`, caught and logged; `sleep(5)`
      ([.post, .sleepFor 5], .cont)
    else
      -- `raise_for_status()` passes: `break`
      ([.post], .brk)
  | .badHeaders => ([.post, .raised], .raise)
  | .netError => ([.post, .sleepFor 5], .cont)

/-- The retry loop of `PVOutputAPI.__call`: `for _ in range(fuel)` from
attempt index `i`, with the `else` clause logging the give-up message. -/
def PVOutputAPI.callGo (outs : ℕ → Outcome) : ℕ → ℕ → List Event
  | _, 0 => [.giveUpLog]
  | i, fuel + 1 =>
    match PVOutputAPI.attemptStep (outs i) with
    | (evs, .brk) => evs
    | (evs, .raise) => evs
    | (evs, .cont) => evs ++ PVOutputAPI.callGo outs (i + 1) fuel

/-- Method `PVOutputAPI.__call`: make three attempts. -/
def PVOutputAPI.call (outs : ℕ → Outcome) : List Event :=
  PVOutputAPI.callGo outs 0 3

/-! Section: the shift scheduler inside `main_loop`
(`src/src/canadian_reads_mqtt2.py` lines 456-535) -/

/-- Constant `shStart = 5`. -/
def shStart : ℤ := 5

/-- Constant `shStop = 21`. -/
def shStop : ℤ := 21

/-- The scheduler's decision: poll now, or sleep a number of minutes. -/
inductive ShiftDecision where
  | active
  | snooze (minutes : ℤ)
deriving DecidableEq

/-- The shift decision of one `main_loop` iteration as a function of the
current local hour and minute: the `shStart <= localnow().hour < shStop`
test and, in its `else` branch, the snooze computation of lines 523-532. -/
def shiftCheck (hour minute : ℤ) : ShiftDecision :=
  if shStart ≤ hour ∧ hour < shStop then .active
  else if 24 > hour ∧ hour ≥ shStop then
    -- before midnight
    .snooze (((shStart - hour) + 24) * 60 - minute)
  else if shStart > hour ∧ hour ≥ 0 then
    -- after midnight
    .snooze ((shStart - hour) * 60 - minute)
  else
    .snooze 1  -- fallback: recheck in 1 minute

/-! Section: Spec-side definitions for the round-trip property (C8) -/

/-- Re-encode one character pair as `(high << 8) | low`, following the
spec's round-trip description. -/
def encodePair (hi lo : Char) : ℕ := (hi.toNat <<< 8) ||| lo.toNat

/-- Re-encode a decoded string two characters at a time. -/
def encodeChars : List Char → List ℕ
  | hi :: lo :: rest => encodePair hi lo :: encodeChars rest
  | _ => []

/-- An attempt outcome that `PVOutputAPI.__call` treats as a retryable
failure: an error-status (4xx/5xx) response other than 403, for which
`raise_for_status` raises `HTTPError`, or a network/timeout/request error. -/
def Outcome.isRetryFailure : Outcome → Prop
  | .response s _ _ _ => (400 ≤ s ∧ s < 600) ∧ s ≠ 403
  | .badHeaders => False
  | .netError => True

/-! Section: Helper lemmas -/

theorem toNat_ofNat_of_lt {n : ℕ} (h : n < 55296) : (Char.ofNat n).toNat = n := by
  have hv : n.isValidChar := Or.inl h
  simp only [Char.ofNat]
  rw [dif_pos hv]
  rfl

theorem encodePair_pairChars (v : ℕ) (hv : v < 65536) :
    encodeChars (Inverter.pairChars v) = [v] ∧
    encodePair (Char.ofNat (v >>> 8)) (Char.ofNat (v &&& 0xFF)) = v := by
  have h1 : v >>> 8 < 256 := by
    rw [Nat.shiftRight_eq_div_pow]
    omega
  have h255 : (0xFF : ℕ) = 2 ^ 8 - 1 := by norm_num
  have h2 : v &&& 0xFF = v % 256 := by
    rw [h255, Nat.and_pow_two_sub_one_eq_mod]
  have h3 : v % 256 < 256 := Nat.mod_lt _ (by norm_num)
  have hpair : encodePair (Char.ofNat (v >>> 8)) (Char.ofNat (v &&& 0xFF)) = v := by
    rw [encodePair, toNat_ofNat_of_lt (by omega), h2, toNat_ofNat_of_lt (by omega)]
    rw [shiftLeft_lor_eq_add _ 8 _ (by norm_num [h3])]
    rw [Nat.shiftLeft_eq, Nat.shiftRight_eq_div_pow]
    norm_num
    omega
  exact ⟨by simp [Inverter.pairChars, encodeChars, hpair], hpair⟩

theorem callGo_succ (outs : ℕ → Outcome) (i fuel : ℕ) :
    PVOutputAPI.callGo outs i (fuel + 1) =
      match PVOutputAPI.attemptStep (outs i) with
      | (evs, .brk) => evs
      | (evs, .raise) => evs
      | (evs, .cont) => evs ++ PVOutputAPI.callGo outs (i + 1) fuel := rfl

theorem attemptStep_of_retryFailure (o : Outcome) (ho : o.isRetryFailure) :
    PVOutputAPI.attemptStep o = ([.post, .sleepFor 5], .cont) := by
  match o with
  | .netError => rfl
  | .badHeaders => exact absurd ho (by simp [Outcome.isRetryFailure])
  | .response s rh tn rem =>
    obtain ⟨⟨hge, hlt⟩, hne⟩ := ho
    simp [PVOutputAPI.attemptStep, hne, hge, hlt]

theorem callGo_cons_post (outs : ℕ → Outcome) (i fuel : ℕ) :
    ∃ rest, PVOutputAPI.callGo outs i (fuel + 1) = Event.post :: rest := by
  rw [callGo_succ]
  rcases outs i with ⟨s, rh, tn, rem⟩ | _ | _
  · simp only [PVOutputAPI.attemptStep]
    split_ifs <;> exact ⟨_, rfl⟩
  · exact ⟨_, rfl⟩
  · exact ⟨_, rfl⟩

theorem getD_lt {l : List ℕ} {b : ℕ} (h : ∀ x ∈ l, x < b) {i : ℕ} (hi : i < l.length) :
    l.getD i 0 < b := by
  rw [List.getD_eq_getElem?_getD, List.getElem?_eq_getElem hi, Option.getD_some]
  exact h _ (l.get_mem i hi)

/-! Section: Claim theorems -/

/-- C1: for every register array of length ≥ 45 with 16-bit elements, the
double-scaled decode primitive at index `i` with scale `s` returns exactly
`((r[i] << 16) | r[i+1]) / s`, and `read_inputs` applies it at combined PV
power offset 1 scale 10, AC power offset 11 scale 10, energy-today offset 26
scale 0.01, energy-total offset 28 scale 0.01, operation hours offset 30
scale 7200. -/
theorem c1_double_scaled_decode (st : Inverter) (now : ℤ) (regs : List ℕ)
    (hlen : 45 ≤ regs.length) (hbound : ∀ x ∈ regs, x < 65536) :
    (∀ i (sc : ℚ), i + 1 < regs.length →
      Inverter._rsdf regs i sc =
        (((regs.getD i 0 <<< 16) ||| regs.getD (i + 1) 0 : ℕ) : ℚ) / sc) ∧
    ∀ s', Inverter.read_inputs st true now (.ok regs) = .ok (true, s') →
      s'.pv_power_total = Inverter._rsdf regs 1 10 ∧
      s'.ac_power = Inverter._rsdf regs 11 10 ∧
      s'.wh_today = Inverter._rsdf regs 26 0.01 ∧
      s'.wh_total = Inverter._rsdf regs 28 0.01 ∧
      s'.operation_hours = Inverter._rsdf regs 30 7200 := by
  constructor
  · intro i sc hi
    have hlt : regs.getD (i + 1) 0 < 2 ^ 16 := by
      have := getD_lt hbound hi
      norm_num at this ⊢
      exact this
    rw [Inverter._rsdf, shiftLeft_lor_eq_add _ 16 _ hlt]
  · intro s' hs'
    have hne : ((regs.getD 0 0 : ℕ) : ℤ) ≠ -1 := by omega
    simp only [Inverter.read_inputs] at hs'
    rw [if_pos hlen, if_neg hne] at hs'
    cases hstat : STATUSCODES ((regs.getD 0 0 : ℕ) : ℤ) with
    | none =>
      rw [hstat] at hs'
      exact absurd hs' (by simp)
    | some str =>
      rw [hstat] at hs'
      injection hs' with h
      injection h with h1 h2
      rw [← h2]
      exact ⟨rfl, rfl, rfl, rfl, rfl⟩

theorem c1_witness :
    (∀ i (sc : ℚ), i + 1 < (List.replicate 45 1).length →
      Inverter._rsdf (List.replicate 45 1) i sc =
        ((((List.replicate 45 1).getD i 0 <<< 16) |||
          (List.replicate 45 1).getD (i + 1) 0 : ℕ) : ℚ) / sc) ∧
    ∀ s', Inverter.read_inputs Inverter.initial true 0 (.ok (List.replicate 45 1)) =
        .ok (true, s') →
      s'.pv_power_total = Inverter._rsdf (List.replicate 45 1) 1 10 ∧
      s'.ac_power = Inverter._rsdf (List.replicate 45 1) 11 10 ∧
      s'.wh_today = Inverter._rsdf (List.replicate 45 1) 26 0.01 ∧
      s'.wh_total = Inverter._rsdf (List.replicate 45 1) 28 0.01 ∧
      s'.operation_hours = Inverter._rsdf (List.replicate 45 1) 30 7200 :=
  c1_double_scaled_decode Inverter.initial 0 (List.replicate 45 1)
    (by simp)
    (by
      intro x hx
      have := List.eq_of_mem_replicate hx
      omega)

/-- C6: on a protocol error or a short (< 45 registers) read with the serial
connection up, `read_inputs` returns `False`, sets `status` to the failure
sentinel `-1`, closes the connection, and leaves every other reading field
unchanged. -/
theorem c6_short_read_frame (st : Inverter) (now : ℤ) (rr : ReadResult)
    (h : rr = .err ∨ ∃ regs, rr = .ok regs ∧ regs.length < 45) :
    ∃ s', Inverter.read_inputs st true now rr = .ok (false, s') ∧
      s'.status = -1 ∧ s'.connOpen = false ∧
      s'.date = st.date ∧ s'.pv_power_total = st.pv_power_total ∧
      s'.pv_power1 = st.pv_power1 ∧ s'.pv_volts1 = st.pv_volts1 ∧
      s'.pv_amps1 = st.pv_amps1 ∧ s'.pv_power2 = st.pv_power2 ∧
      s'.pv_volts2 = st.pv_volts2 ∧ s'.pv_amps2 = st.pv_amps2 ∧
      s'.ac_volts = st.ac_volts ∧ s'.ac_power = st.ac_power ∧
      s'.ac_amps = st.ac_amps ∧ s'.ac_frequency = st.ac_frequency ∧
      s'.wh_today = st.wh_today ∧ s'.wh_total = st.wh_total ∧
      s'.temp = st.temp ∧ s'.ipm_temp = st.ipm_temp ∧
      s'.status_str = st.status_str ∧ s'.operation_hours = st.operation_hours ∧
      s'.firmware = st.firmware ∧ s'.control_fw = st.control_fw ∧
      s'.model_no = st.model_no ∧ s'.serial_no = st.serial_no ∧
      s'.dtc = st.dtc := by
  have key : Inverter.read_inputs st true now rr =
      .ok (false, { st with status := -1, connOpen := false }) := by
    rcases h with rfl | ⟨regs, rfl, hshort⟩
    · rfl
    · simp only [Inverter.read_inputs]
      rw [if_neg (show ¬ 45 ≤ regs.length by omega)]
      rfl
  refine ⟨_, key, ?_⟩
  repeat' constructor

theorem c6_witness :
    ∃ s', Inverter.read_inputs Inverter.initial true 0 .err = .ok (false, s') ∧
      s'.status = -1 ∧ s'.connOpen = false ∧
      s'.date = Inverter.initial.date ∧
      s'.pv_power_total = Inverter.initial.pv_power_total ∧
      s'.pv_power1 = Inverter.initial.pv_power1 ∧
      s'.pv_volts1 = Inverter.initial.pv_volts1 ∧
      s'.pv_amps1 = Inverter.initial.pv_amps1 ∧
      s'.pv_power2 = Inverter.initial.pv_power2 ∧
      s'.pv_volts2 = Inverter.initial.pv_volts2 ∧
      s'.pv_amps2 = Inverter.initial.pv_amps2 ∧
      s'.ac_volts = Inverter.initial.ac_volts ∧
      s'.ac_power = Inverter.initial.ac_power ∧
      s'.ac_amps = Inverter.initial.ac_amps ∧
      s'.ac_frequency = Inverter.initial.ac_frequency ∧
      s'.wh_today = Inverter.initial.wh_today ∧
      s'.wh_total = Inverter.initial.wh_total ∧
      s'.temp = Inverter.initial.temp ∧
      s'.ipm_temp = Inverter.initial.ipm_temp ∧
      s'.status_str = Inverter.initial.status_str ∧
      s'.operation_hours = Inverter.initial.operation_hours ∧
      s'.firmware = Inverter.initial.firmware ∧
      s'.control_fw = Inverter.initial.control_fw ∧
      s'.model_no = Inverter.initial.model_no ∧
      s'.serial_no = Inverter.initial.serial_no ∧
      s'.dtc = Inverter.initial.dtc :=
  c6_short_read_frame Inverter.initial 0 .err (Or.inl rfl)

/-- C10: with at least 45 registers and no protocol error, the Growatt-variant
decode succeeds exactly when the status register `registers[0]` is one of the
codes 0, 1, 3; the unsigned register value never equals the `-1` sentinel, so
the table lookup is never skipped, and any other code raises an unhandled
`KeyError` out of `read_inputs`. -/
theorem c10_status_lookup (st : Inverter) (now : ℤ) (regs : List ℕ)
    (hlen : 45 ≤ regs.length) :
    ((regs.getD 0 0 : ℤ) ≠ -1) ∧
    (Inverter.read_inputs st true now (.ok regs) = .error () ↔
      ¬ (regs.getD 0 0 = 0 ∨ regs.getD 0 0 = 1 ∨ regs.getD 0 0 = 3)) ∧
    ((regs.getD 0 0 = 0 ∨ regs.getD 0 0 = 1 ∨ regs.getD 0 0 = 3) →
      ∃ s', Inverter.read_inputs st true now (.ok regs) = .ok (true, s')) := by
  have hne : ((regs.getD 0 0 : ℕ) : ℤ) ≠ -1 := by omega
  have hred : Inverter.read_inputs st true now (.ok regs) =
      match STATUSCODES ((regs.getD 0 0 : ℕ) : ℤ) with
      | none => .error ()
      | some str =>
        .ok (true, Inverter.decodeFields regs
          { st with connOpen := true, date := now,
                    status := ((regs.getD 0 0 : ℕ) : ℤ), status_str := str }) := by
    simp only [Inverter.read_inputs]
    rw [if_pos hlen, if_neg hne]
    rfl
  by_cases h0 : regs.getD 0 0 = 0
  · have hsome : STATUSCODES ((regs.getD 0 0 : ℕ) : ℤ) = some ("Waiting") := by
      simp only [STATUSCODES]
      rw [if_pos (show ((regs.getD 0 0 : ℕ) : ℤ) = 0 by omega)]
    refine ⟨hne, ?_, fun _ => ?_⟩
    · rw [hred, hsome]
      exact iff_of_false (by simp) (fun hn => hn (Or.inl h0))
    · rw [hred, hsome]
      exact ⟨_, rfl⟩
  · by_cases h1 : regs.getD 0 0 = 1
    · have hsome : STATUSCODES ((regs.getD 0 0 : ℕ) : ℤ) = some ("Normal") := by
        simp only [STATUSCODES]
        rw [if_neg (show ¬ ((regs.getD 0 0 : ℕ) : ℤ) = 0 by omega),
          if_pos (show ((regs.getD 0 0 : ℕ) : ℤ) = 1 by omega)]
      refine ⟨hne, ?_, fun _ => ?_⟩
      · rw [hred, hsome]
        exact iff_of_false (by simp) (fun hn => hn (Or.inr (Or.inl h1)))
      · rw [hred, hsome]
        exact ⟨_, rfl⟩
    · by_cases h3 : regs.getD 0 0 = 3
      · have hsome : STATUSCODES ((regs.getD 0 0 : ℕ) : ℤ) = some ("Fault") := by
          simp only [STATUSCODES]
          rw [if_neg (show ¬ ((regs.getD 0 0 : ℕ) : ℤ) = 0 by omega),
            if_neg (show ¬ ((regs.getD 0 0 : ℕ) : ℤ) = 1 by omega),
            if_pos (show ((regs.getD 0 0 : ℕ) : ℤ) = 3 by omega)]
        refine ⟨hne, ?_, fun _ => ?_⟩
        · rw [hred, hsome]
          exact iff_of_false (by simp) (fun hn => hn (Or.inr (Or.inr h3)))
        · rw [hred, hsome]
          exact ⟨_, rfl⟩
      · have hnone : STATUSCODES ((regs.getD 0 0 : ℕ) : ℤ) = none := by
          simp only [STATUSCODES]
          rw [if_neg (show ¬ ((regs.getD 0 0 : ℕ) : ℤ) = 0 by omega),
            if_neg (show ¬ ((regs.getD 0 0 : ℕ) : ℤ) = 1 by omega),
            if_neg (show ¬ ((regs.getD 0 0 : ℕ) : ℤ) = 3 by omega)]
        refine ⟨hne, ?_, fun hor => ?_⟩
        · rw [hred, hnone]
          exact iff_of_true rfl (fun hor => hor.elim h0 (fun h => h.elim h1 h3))
        · exact absurd hor (fun hor => hor.elim h0 (fun h => h.elim h1 h3))

theorem c10_witness :
    (((7 :: List.replicate 44 0).getD 0 0 : ℤ) ≠ -1) ∧
    (Inverter.read_inputs Inverter.initial true 0 (.ok (7 :: List.replicate 44 0)) =
        .error () ↔
      ¬ ((7 :: List.replicate 44 0).getD 0 0 = 0 ∨
         (7 :: List.replicate 44 0).getD 0 0 = 1 ∨
         (7 :: List.replicate 44 0).getD 0 0 = 3)) ∧
    (((7 :: List.replicate 44 0).getD 0 0 = 0 ∨
      (7 :: List.replicate 44 0).getD 0 0 = 1 ∨
      (7 :: List.replicate 44 0).getD 0 0 = 3) →
      ∃ s', Inverter.read_inputs Inverter.initial true 0
        (.ok (7 :: List.replicate 44 0)) = .ok (true, s')) :=
  c10_status_lookup Inverter.initial 0 (7 :: List.replicate 44 0) (by simp)

/-- C7: the model-number decode extracts six 4-bit nibbles of the combined
32-bit value (high word first) by masking and shifting — equivalently the
base-16 digits at positions 5..0 — and renders them in the fixed order
T, Q, P, U, M, S with single spaces; in particular raw value `0x123456`
yields exactly `"T1 Q2 P3 U4 M5 S6"`. -/
theorem c7_model_number :
    (∀ mo : ℕ, Inverter.model_no_of mo =
      "T" ++ toString ((mo >>> 20) % 16) ++ " Q" ++ toString ((mo >>> 16) % 16) ++
      " P" ++ toString ((mo >>> 12) % 16) ++ " U" ++ toString ((mo >>> 8) % 16) ++
      " M" ++ toString ((mo >>> 4) % 16) ++ " S" ++ toString (mo % 16)) ∧
    (∀ registers : List ℕ, Inverter.version_model_no registers =
      Inverter.model_no_of ((registers.getD 28 0 <<< 16) + registers.getD 29 0)) ∧
    Inverter.model_no_of 0x123456 = "T1 Q2 P3 U4 M5 S6" ∧
    Inverter.version_model_no (List.replicate 28 0 ++ [0x12, 0x3456]) =
      "T1 Q2 P3 U4 M5 S6" := by
  refine ⟨?_, fun registers => rfl, rfl, rfl⟩
  intro mo
  have h20 : (0xF00000 : ℕ) = 15 <<< 20 := by norm_num [Nat.shiftLeft_eq]
  have h16 : (0x0F0000 : ℕ) = 15 <<< 16 := by norm_num [Nat.shiftLeft_eq]
  have h12 : (0x00F000 : ℕ) = 15 <<< 12 := by norm_num [Nat.shiftLeft_eq]
  have h8 : (0x000F00 : ℕ) = 15 <<< 8 := by norm_num [Nat.shiftLeft_eq]
  have h4 : (0x0000F0 : ℕ) = 15 <<< 4 := by norm_num [Nat.shiftLeft_eq]
  have h0 : mo &&& 0x00000F = mo % 16 := by
    have h := Nat.and_pow_two_sub_one_eq_mod mo 4
    norm_num at h
    exact h
  rw [Inverter.model_no_of, h20, h16, h12, h8, h4, h0, mask_shift_eq,
    mask_shift_eq, mask_shift_eq, mask_shift_eq, mask_shift_eq]

theorem decode_data_spec (registers : List ℕ) :
    ∀ count start : ℕ, (∀ i, i < count → registers.getD (start + i) 0 < 65536) →
      ((List.range count).flatMap
          (fun i => Inverter.pairChars (registers.getD (start + i) 0))).length =
        2 * count ∧
      encodeChars ((List.range count).flatMap
          (fun i => Inverter.pairChars (registers.getD (start + i) 0))) =
        (List.range count).map (fun i => registers.getD (start + i) 0) := by
  intro count
  induction count with
  | zero => exact fun start _ => ⟨rfl, rfl⟩
  | succ n ih =>
    intro start hb
    have harg : ∀ i : ℕ, start + (i + 1) = (start + 1) + i := fun i => by omega
    have hstep : (List.range (n + 1)).flatMap
        (fun i => Inverter.pairChars (registers.getD (start + i) 0)) =
        Inverter.pairChars (registers.getD (start + 0) 0) ++
          (List.range n).flatMap
            (fun i => Inverter.pairChars (registers.getD ((start + 1) + i) 0)) := by
      rw [List.range_succ_eq_map, List.flatMap_cons, List.flatMap_map]
      congr 1
      congr 1
      funext a
      rw [show start + Nat.succ a = (start + 1) + a from by omega]
    have hmap : (List.range (n + 1)).map (fun i => registers.getD (start + i) 0) =
        registers.getD (start + 0) 0 ::
          (List.range n).map (fun i => registers.getD ((start + 1) + i) 0) := by
      rw [List.range_succ_eq_map, List.map_cons, List.map_map]
      congr 1
      congr 1
      funext a
      show registers.getD (start + Nat.succ a) 0 = registers.getD ((start + 1) + a) 0
      rw [show start + Nat.succ a = (start + 1) + a from by omega]
    have hb' : ∀ i, i < n → registers.getD ((start + 1) + i) 0 < 65536 := by
      intro i hi
      have h := hb (i + 1) (by omega)
      rwa [harg i] at h
    obtain ⟨ih1, ih2⟩ := ih (start + 1) hb'
    have hv : registers.getD (start + 0) 0 < 65536 := hb 0 (by omega)
    refine ⟨?_, ?_⟩
    · rw [hstep, List.length_append, ih1]
      simp [Inverter.pairChars]
      ring
    · rw [hstep, hmap]
      have hcons : Inverter.pairChars (registers.getD (start + 0) 0) ++
          (List.range n).flatMap
            (fun i => Inverter.pairChars (registers.getD ((start + 1) + i) 0)) =
          Char.ofNat (registers.getD (start + 0) 0 >>> 8) ::
          Char.ofNat (registers.getD (start + 0) 0 &&& 0xFF) ::
          (List.range n).flatMap
            (fun i => Inverter.pairChars (registers.getD ((start + 1) + i) 0)) := rfl
      rw [hcons]
      simp only [encodeChars]
      rw [(encodePair_pairChars _ hv).2, ih2]

/-- C8: string decoding of `count` registers starting at `start` yields two
characters per register (high byte then low byte, in register order), and it
round-trips: re-encoding each consecutive character pair as
`(high << 8) | low` recovers the register values, for 16-bit registers. -/
theorem c8_decode_roundtrip (registers : List ℕ) (start count : ℕ)
    (hb : ∀ i, i < count → registers.getD (start + i) 0 < 65536) :
    (Inverter._decode_registers registers start count).length = 2 * count ∧
    encodeChars (Inverter._decode_registers registers start count).data =
      (List.range count).map (fun i => registers.getD (start + i) 0) := by
  obtain ⟨h1, h2⟩ := decode_data_spec registers count start hb
  exact ⟨h1, h2⟩

theorem c8_witness :
    (Inverter._decode_registers [0x4142, 0x4344] 0 2).length = 2 * 2 ∧
    encodeChars (Inverter._decode_registers [0x4142, 0x4344] 0 2).data =
      (List.range 2).map (fun i => ([0x4142, 0x4344] : List ℕ).getD (0 + i) 0) :=
  c8_decode_roundtrip [0x4142, 0x4344] 0 2 (by decide)

/-- C4: with the configured window `start=5`, `stop=21`: hours in `[5,21)`
are active; at/after 21 the snooze is `((5 - hour + 24) * 60) - minute`
minutes (480 at 21:00); before 5 it is `((5 - hour) * 60) - minute` minutes
(120 at 03:00, positive and strictly below 60 at 04:59); any other
combination falls back to a 1-minute recheck. -/
theorem c4_shift_scheduler (hour minute : ℤ)
    (hh : 0 ≤ hour ∧ hour < 24) (hm : 0 ≤ minute ∧ minute < 60) :
    ((5 ≤ hour ∧ hour < 21) → shiftCheck hour minute = .active) ∧
    (21 ≤ hour → shiftCheck hour minute = .snooze (((5 - hour) + 24) * 60 - minute)) ∧
    (hour < 5 → shiftCheck hour minute = .snooze ((5 - hour) * 60 - minute)) ∧
    (hour < 5 → 0 < (5 - hour) * 60 - minute) ∧
    (∀ h m : ℤ, (h < 0 ∨ 24 ≤ h) → shiftCheck h m = .snooze 1) ∧
    shiftCheck 21 0 = .snooze 480 ∧
    shiftCheck 3 0 = .snooze 120 ∧
    shiftCheck 4 59 = .snooze 1 ∧
    ((0 : ℤ) < (5 - 4) * 60 - 59 ∧ ((5 : ℤ) - 4) * 60 - 59 < 60) := by
  refine ⟨?_, ?_, ?_, ?_, ?_, by decide, by decide, by decide, by norm_num⟩
  · intro h
    simp only [shiftCheck, shStart, shStop]
    rw [if_pos h]
  · intro h
    simp only [shiftCheck, shStart, shStop]
    rw [if_neg (show ¬ ((5:ℤ) ≤ hour ∧ hour < 21) by omega),
      if_pos (show (24:ℤ) > hour ∧ hour ≥ 21 by omega)]
  · intro h
    simp only [shiftCheck, shStart, shStop]
    rw [if_neg (show ¬ ((5:ℤ) ≤ hour ∧ hour < 21) by omega),
      if_neg (show ¬ ((24:ℤ) > hour ∧ hour ≥ 21) by omega),
      if_pos (show (5:ℤ) > hour ∧ hour ≥ 0 by omega)]
  · intro h
    omega
  · intro h m hcase
    simp only [shiftCheck, shStart, shStop]
    rw [if_neg (show ¬ ((5:ℤ) ≤ h ∧ h < 21) by omega),
      if_neg (show ¬ ((24:ℤ) > h ∧ h ≥ 21) by omega),
      if_neg (show ¬ ((5:ℤ) > h ∧ h ≥ 0) by omega)]

theorem c4_witness : shiftCheck 10 30 = .active :=
  (c4_shift_scheduler 10 30 (by norm_num) (by norm_num)).1 (by norm_num)

/-- C2 counterexample: a response status that is non-2xx and not 403 need not
be treated as a failure — `raise_for_status` does not raise on 304, so the
loop breaks after a single POST attempt with no give-up log. -/
theorem c2_counterexample :
    ((304 : ℤ) < 200 ∨ 300 ≤ (304 : ℤ)) ∧ (304 : ℤ) ≠ 403 ∧
    PVOutputAPI.call (fun _ => .response 304 0 0 100) = [Event.post] ∧
    (PVOutputAPI.call (fun _ => .response 304 0 0 100)).count Event.post = 1 ∧
    Event.giveUpLog ∉ PVOutputAPI.call (fun _ => .response 304 0 0 100) := by
  refine ⟨by norm_num, by norm_num, rfl, rfl, by decide⟩

/-- C2 (amended): for three consecutive attempts that each fail with an HTTP
error status (4xx/5xx, not 403) or a connection/timeout/request error, the
call makes exactly 3 POST attempts, logs the give-up message, and no
exception escapes. -/
theorem c2_three_failures (outs : ℕ → Outcome)
    (h0 : (outs 0).isRetryFailure) (h1 : (outs 1).isRetryFailure)
    (h2 : (outs 2).isRetryFailure) :
    PVOutputAPI.call outs =
      [.post, .sleepFor 5, .post, .sleepFor 5, .post, .sleepFor 5, .giveUpLog] ∧
    (PVOutputAPI.call outs).count .post = 3 ∧
    Event.giveUpLog ∈ PVOutputAPI.call outs ∧
    Event.raised ∉ PVOutputAPI.call outs := by
  have e0 := attemptStep_of_retryFailure _ h0
  have e1 := attemptStep_of_retryFailure _ h1
  have e2 := attemptStep_of_retryFailure _ h2
  have s0 : PVOutputAPI.callGo outs 0 3 =
      [Event.post, Event.sleepFor 5] ++ PVOutputAPI.callGo outs 1 2 := by
    have h := callGo_succ outs 0 2
    rw [e0] at h
    exact h
  have s1 : PVOutputAPI.callGo outs 1 2 =
      [Event.post, Event.sleepFor 5] ++ PVOutputAPI.callGo outs 2 1 := by
    have h := callGo_succ outs 1 1
    rw [e1] at h
    exact h
  have s2 : PVOutputAPI.callGo outs 2 1 =
      [Event.post, Event.sleepFor 5] ++ PVOutputAPI.callGo outs 3 0 := by
    have h := callGo_succ outs 2 0
    rw [e2] at h
    exact h
  have key : PVOutputAPI.call outs =
      [.post, .sleepFor 5, .post, .sleepFor 5, .post, .sleepFor 5, .giveUpLog] := by
    rw [PVOutputAPI.call, s0, s1, s2]
    rfl
  exact ⟨key, by rw [key]; decide, by rw [key]; decide, by rw [key]; decide⟩

theorem c2_three_failures_witness :
    PVOutputAPI.call (fun _ => Outcome.netError) =
      [.post, .sleepFor 5, .post, .sleepFor 5, .post, .sleepFor 5, .giveUpLog] ∧
    (PVOutputAPI.call (fun _ => Outcome.netError)).count .post = 3 ∧
    Event.giveUpLog ∈ PVOutputAPI.call (fun _ => Outcome.netError) ∧
    Event.raised ∉ PVOutputAPI.call (fun _ => Outcome.netError) :=
  c2_three_failures (fun _ => Outcome.netError) trivial trivial trivial

/-- C5 counterexample: on a 403 whose rate-limit-reset header lies in the
past, `round(reset - now) + 1` is negative, so `sleep(reset + 1)` raises an
uncaught `ValueError` that escapes the call — no sleep is performed and the
uploader does not proceed to a next POST attempt, contrary to the claim. -/
theorem c5_counterexample :
    pyRound ((0 : ℚ) - 10) + 1 = -9 ∧
    PVOutputAPI.call (fun _ => .response 403 0 10 100) =
      [Event.post, Event.raised] ∧
    ¬ ∃ rest, PVOutputAPI.call (fun _ => .response 403 0 10 100) =
      Event.post :: Event.sleepFor (pyRound ((0 : ℚ) - 10) + 1) ::
        Event.sleepFor 5 :: Event.post :: rest := by
  have hcast : (0 : ℚ) - 10 = ((-10 : ℤ) : ℚ) := by norm_num
  have hr : pyRound ((0 : ℚ) - 10) = -10 := by rw [hcast, pyRound_intCast]
  have h1 : pyRound ((0 : ℚ) - 10) + 1 = -9 := by rw [hr]; norm_num
  have e0 : PVOutputAPI.attemptStep (.response 403 0 10 100) =
      ([Event.post, Event.raised], .raise) := by
    simp only [PVOutputAPI.attemptStep, if_true]
    rw [if_pos (show pyRound ((0 : ℚ) - 10) + 1 < 0 by rw [hr]; norm_num)]
  have hcall : PVOutputAPI.call (fun _ => .response 403 0 10 100) =
      [Event.post, Event.raised] := by
    have h := callGo_succ (fun _ => .response 403 0 10 100) 0 2
    rw [e0] at h
    exact h
  refine ⟨h1, hcall, ?_⟩
  rintro ⟨rest, hrest⟩
  rw [hcall] at hrest
  simp at hrest

/-- C5 (amended): on a 403 response whose parsed rate-limit-reset header
gives a non-negative `round(reset - now) + 1`, the call sleeps exactly that
many seconds (then the fixed 5 more), and then proceeds to the next POST
attempt rather than stopping; a reset of `now + 30` gives a first sleep of
31 ≥ 31 seconds.  (For a negative value `time.sleep` raises an uncaught
`ValueError` instead, see the counterexample.) -/
theorem c5_rate_limit (outs : ℕ → Outcome) (resetHdr now : ℚ) (remaining : ℤ)
    (h : outs 0 = .response 403 resetHdr now remaining)
    (hnn : 0 ≤ pyRound (resetHdr - now) + 1) :
    (∃ rest, PVOutputAPI.call outs =
      Event.post :: Event.sleepFor (pyRound (resetHdr - now) + 1) ::
        Event.sleepFor 5 :: Event.post :: rest) ∧
    (∀ t : ℚ, pyRound ((t + 30) - t) + 1 = 31) := by
  constructor
  · have hnn' : ¬ (pyRound (resetHdr - now) + 1 < 0) := by omega
    have e0 : PVOutputAPI.attemptStep (outs 0) =
        ([.post, .sleepFor (pyRound (resetHdr - now) + 1), .sleepFor 5], .cont) := by
      rw [h]
      simp [PVOutputAPI.attemptStep, hnn']
    obtain ⟨rest, hrest⟩ := callGo_cons_post outs 1 1
    have hrest2 : PVOutputAPI.callGo outs 1 2 = Event.post :: rest := hrest
    have s0 : PVOutputAPI.callGo outs 0 3 =
        [Event.post, Event.sleepFor (pyRound (resetHdr - now) + 1),
          Event.sleepFor 5] ++ PVOutputAPI.callGo outs 1 2 := by
      have hh := callGo_succ outs 0 2
      rw [e0] at hh
      exact hh
    exact ⟨rest, by rw [PVOutputAPI.call, s0, hrest2]; rfl⟩
  · intro t
    have ht : (t + 30) - t = ((30 : ℤ) : ℚ) := by push_cast; ring
    rw [ht, pyRound_intCast]
    norm_num

theorem c5_witness :
    (∃ rest, PVOutputAPI.call (fun _ => Outcome.response 403 30 0 100) =
      Event.post :: Event.sleepFor (pyRound ((30 : ℚ) - 0) + 1) ::
        Event.sleepFor 5 :: Event.post :: rest) ∧
    (∀ t : ℚ, pyRound ((t + 30) - t) + 1 = 31) :=
  c5_rate_limit (fun _ => Outcome.response 403 30 0 100) 30 0 100 rfl (by
    rw [show (30 : ℚ) - 0 = ((30 : ℤ) : ℚ) by norm_num, pyRound_intCast]
    norm_num)

theorem send_status_v1_char (self : UploadState) (d t : String)
    (pg ei pi tp vdc : Option ℚ) (cum : Bool) (vac ti el : Option ℚ)
    (cm : Option String) (pv : Option ℚ) (e : ℚ) :
    (PVOutputAPI.send_status self d t (some e) pg ei pi tp vdc cum vac ti el cm pv).1 =
      (if (self.wh_today_last : ℚ) ≠ e then ⟨pyInt e⟩ else self) ∧
    (PVOutputAPI.send_status self d t (some e) pg ei pi tp vdc cum vac ti el cm pv).2.v1 =
      (if (self.wh_today_last : ℚ) ≠ e then some (pyInt e) else none) :=
  ⟨rfl, rfl⟩

/-- C3 counterexample: the stored last-uploaded value is the `int`-truncation
of the energy value, so two consecutive calls with the same non-integer
energy value `0.5` both include `v1` — the second call does not omit it. -/
theorem c3_counterexample :
    (PVOutputAPI.send_status PVOutputAPI.initial ("20260101") ("12:00") (some (1/2))
        none none none none none false none none none none none).2.v1 = some 0 ∧
    (PVOutputAPI.send_status
        (PVOutputAPI.send_status PVOutputAPI.initial ("20260101") ("12:00") (some (1/2))
          none none none none none false none none none none none).1
        ("20260101") ("12:05") (some (1/2))
        none none none none none false none none none none none).2.v1 = some 0 := by
  have h1 := send_status_v1_char PVOutputAPI.initial ("20260101") ("12:00")
    none none none none none false none none none none none (1/2 : ℚ)
  have hcond : ((PVOutputAPI.initial.wh_today_last : ℤ) : ℚ) ≠ (1/2 : ℚ) := by
    norm_num [PVOutputAPI.initial]
  have hfloor : pyInt (1/2 : ℚ) = 0 := by
    rw [pyInt, if_pos (by norm_num)]
    rw [Int.floor_eq_zero_iff.mpr (by constructor <;> norm_num)]
  have hst : (PVOutputAPI.send_status PVOutputAPI.initial ("20260101") ("12:00")
      (some (1/2)) none none none none none false none none none none none).1 =
      ⟨0⟩ := by
    rw [h1.1, if_pos hcond, hfloor]
  constructor
  · rw [h1.2, if_pos hcond, hfloor]
  · have h2 := send_status_v1_char
      (PVOutputAPI.send_status PVOutputAPI.initial ("20260101") ("12:00") (some (1/2))
        none none none none none false none none none none none).1
      ("20260101") ("12:05") none none none none none false none none none none none
      (1/2 : ℚ)
    rw [h2.2, hst, if_pos (show (((0:ℤ) : ℚ)) ≠ (1/2 : ℚ) by norm_num), hfloor]

/-- C3 (amended): for integer-valued energy values the dedup behaves as
specified: the second of two consecutive calls with the same energy value
omits `v1`; a value differing from the stored one is included as `v1` and
stored; an equal value leaves the state untouched; the stored value starts
at zero at construction and is only ever changed by this rule. -/
theorem c3_energy_dedup (st : UploadState) (z : ℤ) (d1 t1 d2 t2 : String)
    (pg1 ei1 pi1 tp1 vdc1 : Option ℚ) (cum1 : Bool) (vac1 ti1 el1 : Option ℚ)
    (cm1 : Option String) (pv1 : Option ℚ)
    (pg2 ei2 pi2 tp2 vdc2 : Option ℚ) (cum2 : Bool) (vac2 ti2 el2 : Option ℚ)
    (cm2 : Option String) (pv2 : Option ℚ) :
    (PVOutputAPI.send_status
        (PVOutputAPI.send_status st d1 t1 (some (z : ℚ)) pg1 ei1 pi1 tp1 vdc1
          cum1 vac1 ti1 el1 cm1 pv1).1
        d2 t2 (some (z : ℚ)) pg2 ei2 pi2 tp2 vdc2 cum2 vac2 ti2 el2 cm2 pv2).2.v1 =
      none ∧
    ((st.wh_today_last : ℚ) ≠ (z : ℚ) →
      (PVOutputAPI.send_status st d1 t1 (some (z : ℚ)) pg1 ei1 pi1 tp1 vdc1
        cum1 vac1 ti1 el1 cm1 pv1).2.v1 = some z ∧
      (PVOutputAPI.send_status st d1 t1 (some (z : ℚ)) pg1 ei1 pi1 tp1 vdc1
        cum1 vac1 ti1 el1 cm1 pv1).1.wh_today_last = z) ∧
    ((st.wh_today_last : ℚ) = (z : ℚ) →
      (PVOutputAPI.send_status st d1 t1 (some (z : ℚ)) pg1 ei1 pi1 tp1 vdc1
        cum1 vac1 ti1 el1 cm1 pv1).2.v1 = none ∧
      (PVOutputAPI.send_status st d1 t1 (some (z : ℚ)) pg1 ei1 pi1 tp1 vdc1
        cum1 vac1 ti1 el1 cm1 pv1).1 = st) ∧
    PVOutputAPI.initial.wh_today_last = 0 := by
  have h1 := send_status_v1_char st d1 t1 pg1 ei1 pi1 tp1 vdc1 cum1 vac1 ti1 el1
    cm1 pv1 (z : ℚ)
  have h2 := send_status_v1_char
    (PVOutputAPI.send_status st d1 t1 (some (z : ℚ)) pg1 ei1 pi1 tp1 vdc1
      cum1 vac1 ti1 el1 cm1 pv1).1 d2 t2 pg2 ei2 pi2 tp2 vdc2 cum2 vac2 ti2 el2
    cm2 pv2 (z : ℚ)
  refine ⟨?_, fun hc => ⟨?_, ?_⟩, fun hc => ⟨?_, ?_⟩, rfl⟩
  · rw [h2.2, h1.1]
    by_cases hc : (st.wh_today_last : ℚ) ≠ (z : ℚ)
    · rw [if_pos hc, pyInt_intCast]
      rw [if_neg (show ¬ (((z : ℤ) : ℚ) ≠ (z : ℚ)) by simp)]
    · rw [if_neg hc]
      rw [if_neg hc]
  · rw [h1.2, if_pos hc, pyInt_intCast]
  · rw [h1.1, if_pos hc]
    exact pyInt_intCast z
  · rw [h1.2, if_neg (fun hne => hne hc)]
  · rw [h1.1, if_neg (fun hne => hne hc)]

/-- C9: in both uploader variants the payload contains the efficiency field
`v12` exactly when generated power and PV-side power are both supplied and
PV-side power is strictly positive; the value is `power_gen / power_vdc`,
multiplied by 100 in the MQTT variant and unscaled in the legacy variant. -/
theorem c9_efficiency (st : UploadState) (d t : String)
    (energy_gen power_gen energy_imp power_imp temp vdc : Option ℚ)
    (cumulative : Bool) (vac temp_inv energy_life : Option ℚ)
    (comments : Option String) (power_vdc : Option ℚ) :
    ((PVOutputAPI.send_status st d t energy_gen power_gen energy_imp power_imp
        temp vdc cumulative vac temp_inv energy_life comments power_vdc).2.v12 =
      match power_vdc, power_gen with
      | some pv, some pg => if 0 < pv then some (pg / pv * 100) else none
      | _, _ => none) ∧
    ((LegacyPVOutputAPI.send_status st d t energy_gen power_gen energy_imp
        power_imp temp vdc cumulative vac temp_inv energy_life comments
        power_vdc).2.v12 =
      match power_vdc, power_gen with
      | some pv, some pg => if 0 < pv then some (pg / pv) else none
      | _, _ => none) ∧
    (((PVOutputAPI.send_status st d t energy_gen power_gen energy_imp power_imp
        temp vdc cumulative vac temp_inv energy_life comments
        power_vdc).2.v12 ≠ none) ↔
      ∃ pv pg, power_vdc = some pv ∧ power_gen = some pg ∧ 0 < pv) := by
  refine ⟨rfl, rfl, ?_⟩
  rw [show (PVOutputAPI.send_status st d t energy_gen power_gen energy_imp
        power_imp temp vdc cumulative vac temp_inv energy_life comments
        power_vdc).2.v12 =
      match power_vdc, power_gen with
      | some pv, some pg => if 0 < pv then some (pg / pv * 100) else none
      | _, _ => none from rfl]
  rcases power_vdc with _ | pv <;> rcases power_gen with _ | pg <;> simp

end GrowattMqtt
